import Mathlib

/-!
Verification of the afsql SQL destination driver (src/modules/afsql/afsql.c).

C strings are modelled as lists of byte values (`List Nat`, each < 256) for the
byte-level routines (identifier checking, port checking, index-name derivation),
and the transactional worker state is modelled as an explicit record with the
driver's query outcomes supplied as booleans.  Queue operations performed on the
host's log queue are recorded as an explicit action trace.
-/

set_option maxHeartbeats 1000000

/-- `g_ascii_tolower` on a byte: maps 'A'..'Z' (65..90) to lowercase, leaves
every other byte unchanged. -/
def g_ascii_tolower (c : Nat) : Nat :=
  if 65 ≤ c ∧ c ≤ 90 then c + 32 else c

/-- The per-character test of `afsql_dd_check_sql_identifier` (afsql.c:369):
`token[i] == '.' || token[i] == '_' || (i && '0' <= token[i] <= '9')
 || ('a' <= g_ascii_tolower(token[i]) <= 'z')`.
Bytes: '.' = 46, '_' = 95, '0'..'9' = 48..57, 'a'..'z' = 97..122. -/
def identCharOk (i c : Nat) : Bool :=
  (c == 46) || (c == 95) ||
  (decide (1 ≤ i) && decide (48 ≤ c ∧ c ≤ 57)) ||
  decide (97 ≤ g_ascii_tolower c ∧ g_ascii_tolower c ≤ 122)

/-- Loop body of `afsql_dd_check_sql_identifier` (afsql.c:362-378), carrying the
current index.  Returns the gboolean result together with the (possibly
modified, when `sanitize`) token.  With `sanitize = false` the function returns
FALSE at the first out-of-grammar byte, leaving the token unchanged. -/
def checkIdentGo (sanitize : Bool) (i : Nat) : List Nat → Bool × List Nat
  | [] => (true, [])
  | c :: rest =>
    if identCharOk i c then
      let r := checkIdentGo sanitize (i + 1) rest
      (r.1, c :: r.2)
    else if sanitize then
      let r := checkIdentGo sanitize (i + 1) rest
      (r.1, 95 :: r.2)
    else
      (false, c :: rest)

/-- `afsql_dd_check_sql_identifier(token, sanitize)` (afsql.c:362-378). -/
def afsql_dd_check_sql_identifier (token : List Nat) (sanitize : Bool) :
    Bool × List Nat :=
  checkIdentGo sanitize 0 token

/-- The grammar of the specification, spelled independently of the source: a
byte is allowed when it is '.', '_', an ASCII letter of either case, or (from
position 1 onward) a decimal digit. -/
def grammarOkAt (i c : Nat) : Bool :=
  (c == 46) || (c == 95) ||
  decide (65 ≤ c ∧ c ≤ 90) || decide (97 ≤ c ∧ c ≤ 122) ||
  (decide (1 ≤ i) && decide (48 ≤ c ∧ c ≤ 57))

/-- In-place sanitisation as the specification words it: every out-of-grammar
byte is replaced by '_' (95), position by position. -/
def sanitizeSpec (i : Nat) : List Nat → List Nat
  | [] => []
  | c :: rest => (if identCharOk i c then c else 95) :: sanitizeSpec (i + 1) rest

/-- `afsql_dd_check_port(port)` (afsql.c:148-156): TRUE iff no byte of the
string is outside '0'..'9' (48..57). -/
def afsql_dd_check_port (port : List Nat) : Bool :=
  port.all fun c => !(decide (c < 48) || decide (57 < c))

/-- One hex digit (lowercase), as a byte: 0..9 ↦ '0'..'9', 10..15 ↦ 'a'..'f'. -/
def hexDigitByte (n : Nat) : Nat :=
  if n < 10 then 48 + n else 87 + n

/-- ASCII-hex of one byte, high nibble first ("%02x"). -/
def byteToHex (b : Nat) : List Nat :=
  [hexDigitByte (b / 16), hexDigitByte (b % 16)]

/-- Modelled from the spec: `format_hex_string` (declared in misc.h, its body is
outside src/) renders a byte buffer as lowercase ASCII-hex into a result buffer
of the given size, truncating so that the output and its terminating NUL fit;
the spec describes the effect at afsql.c:510 as "the ASCII-hex of an MD5 digest
truncated to 30 characters" (buffer size 31). -/
def format_hex_string (bytes : List Nat) (resultLen : Nat) : List Nat :=
  ((bytes.map byteToHex).flatten).take (resultLen - 1)

/-- "oracle" as bytes. -/
def oracleType : List Nat := [111, 114, 97, 99, 108, 101]

/-- "_idx" as bytes. -/
def idxSuffix : List Nat := [95, 105, 100, 120]

/-- The index-name derivation of `afsql_dd_create_index` (afsql.c:486-527).
For dialect "oracle" with `strlen(table) + strlen(column) > 25` the name is the
ASCII-hex of `md5("{table}_{column}")` written into a 31-byte buffer (hence
truncated to 30 characters) whose first character is overwritten with 'i'
(105); otherwise (short oracle names and every other dialect) the name is
`{table}_{column}_idx`.  The MD5 primitive (OpenSSL, external) is a
parameter producing the 16 digest bytes. -/
def afsql_dd_index_name (md5 : List Nat → List Nat) (typ table column : List Nat) :
    List Nat :=
  if typ = oracleType ∧ table.length + column.length > 25 then
    match format_hex_string (md5 (table ++ [95] ++ column)) 31 with
    | [] => []
    | _ :: t => 105 :: t
  else
    table ++ [95] ++ column ++ idxSuffix

/-- The two fields of the driver configuration that decide transaction
handling, as they stand when `afsql_dd_init` runs (after the option setters). -/
structure SqlInitConfig where
  explicit_commits : Bool
  flush_lines : Int
deriving Repr, DecidableEq

/-- The effect of `afsql_dd_init` (afsql.c:1302-1306) on the pair
`(flush_lines, flush_lines_queued)`:  `flush_lines_queued` starts at -1 (set in
`afsql_dd_new`, afsql.c:1447); init first replaces a configured `flush_lines`
of -1 by the global `cfg->flush_lines`, then sets `flush_lines_queued` to 0
exactly when the `explicit-commits` flag is set and `flush_lines > 0`. -/
def afsql_dd_init_flush (cfg_flush_lines : Int) (c : SqlInitConfig) : Int × Int :=
  let fl := if c.flush_lines = -1 then cfg_flush_lines else c.flush_lines
  let flq : Int := if c.explicit_commits = true ∧ fl > 0 then 0 else -1
  (fl, flq)

/-- The runtime fields of `AFSqlDestDriver` touched by the transactional
worker protocol. -/
structure DriverState where
  typ : List Nat
  flush_lines : Int
  flush_lines_queued : Int
  transaction_active : Bool
  failed_message_counter : Nat
  num_retries : Nat
  explicit_commits : Bool
deriving Repr, DecidableEq

/-- Operations the worker performs on the host queue / message / counters,
recorded as a trace. -/
inductive QueueAction where
  | ackBacklog (n : Int)
  | rewindBacklogAll
  | rewindBacklog (n : Nat)
  | pushHead
  | ackProcessed
  | stepSeqNum
  | incDropped
  | dropMsg
deriving Repr, DecidableEq

/-- `afsql_dd_handle_transaction_error` (afsql.c:387-392): rewind the whole
backlog and zero `flush_lines_queued`. -/
def afsql_dd_handle_transaction_error (s : DriverState) :
    DriverState × List QueueAction :=
  ({s with flush_lines_queued := 0}, [QueueAction.rewindBacklogAll])

/-- `afsql_dd_commit_transaction` (afsql.c:401-423).  `commit_query_ok` is the
outcome of running the COMMIT statement on the driver. -/
def afsql_dd_commit_transaction (commit_query_ok : Bool) (s : DriverState) :
    Bool × DriverState × List QueueAction :=
  if !s.transaction_active then
    (true, s, [])
  else if commit_query_ok then
    (true, {s with flush_lines_queued := 0, transaction_active := false},
      [QueueAction.ackBacklog s.flush_lines_queued])
  else
    let r := afsql_dd_handle_transaction_error s
    (false, r.1, r.2)

/-- `afsql_dd_rollback_transaction` (afsql.c:452-461): no-op when no
transaction is active, otherwise clears `transaction_active` and then issues
ROLLBACK, returning that query's outcome. -/
def afsql_dd_rollback_transaction (rollback_query_ok : Bool) (s : DriverState) :
    Bool × DriverState × List QueueAction :=
  if !s.transaction_active then
    (true, s, [])
  else
    (rollback_query_ok, {s with transaction_active := false}, [])

/-- `afsql_dd_begin_transaction` (afsql.c:432-450): for "oracle" the BEGIN
statement is skipped (success stays TRUE); `transaction_active` is set
regardless. -/
def afsql_dd_begin_transaction (begin_query_ok : Bool) (s : DriverState) :
    Bool × DriverState × List QueueAction :=
  let success := if s.typ = oracleType then true else begin_query_ok
  (success, {s with transaction_active := true}, [])

/-- `afsql_dd_is_transaction_handling_enabled` (afsql.c:857-861). -/
def afsql_dd_is_transaction_handling_enabled (s : DriverState) : Bool :=
  s.flush_lines_queued != -1

/-- `afsql_dd_should_begin_new_transaction` (afsql.c:863-867). -/
def afsql_dd_should_begin_new_transaction (s : DriverState) : Bool :=
  s.flush_lines_queued == 0

/-- `afsql_dd_should_commit_transaction` (afsql.c:869-873). -/
def afsql_dd_should_commit_transaction (s : DriverState) : Bool :=
  afsql_dd_is_transaction_handling_enabled s &&
    s.flush_lines_queued == s.flush_lines

/-- `afsql_dd_rollback_msg` (afsql.c:875-882): with `explicit-commits` rewind
one backlog entry, otherwise push the message back to the queue head. -/
def afsql_dd_rollback_msg (s : DriverState) : List QueueAction :=
  if s.explicit_commits then [QueueAction.rewindBacklog 1]
  else [QueueAction.pushHead]

/-- `afsql_dd_handle_insert_row_error_depending_on_connection_availability`
(afsql.c:884-920).  `ping_alive` is the outcome of `dbi_conn_ping`. -/
def afsql_dd_handle_insert_row_error (ping_alive : Bool) (s : DriverState) :
    Bool × DriverState × List QueueAction :=
  if ping_alive then
    (true, s, afsql_dd_rollback_msg s)
  else if afsql_dd_is_transaction_handling_enabled s then
    let r := afsql_dd_handle_transaction_error s
    (false, r.1, r.2)
  else
    (false, s, afsql_dd_rollback_msg s)

/-- Outcomes of the driver-level primitives during one `afsql_dd_insert_db`
call: connection establishment, queue pop, and the results of the BEGIN,
INSERT, COMMIT, ROLLBACK statements and of the liveness ping. -/
structure InsertEnv where
  connect_ok : Bool
  queue_has_msg : Bool
  begin_query_ok : Bool
  insert_query_ok : Bool
  commit_query_ok : Bool
  rollback_query_ok : Bool
  ping_alive : Bool
deriving Repr, DecidableEq

/-- The tail of `afsql_dd_insert_db` after label `out` (afsql.c:992-1019):
on success acknowledge the message (AT_PROCESSED), step the sequence number
and reset `failed_message_counter`; on failure either rewind (when the counter
has not yet reached `num_retries - 1`, propagating a dead-connection FALSE),
or drop the message, reset the counter and treat the call as success. -/
def insertDbFinish (ping_alive : Bool) (success : Bool) (s : DriverState) :
    Bool × DriverState × List QueueAction :=
  if success then
    (true, {s with failed_message_counter := 0},
      [QueueAction.ackProcessed, QueueAction.stepSeqNum])
  else if s.failed_message_counter < s.num_retries - 1 then
    let r := afsql_dd_handle_insert_row_error ping_alive s
    if !r.1 then (false, r.2.1, r.2.2)
    else
      (false,
        {r.2.1 with failed_message_counter := r.2.1.failed_message_counter + 1},
        r.2.2)
  else
    (true, {s with failed_message_counter := 0},
      [QueueAction.incDropped, QueueAction.dropMsg])

/-- `afsql_dd_insert_db` (afsql.c:930-1020).  The schema reconciler
(`afsql_dd_ensure_accessible_database_table`, whose internals no claim is
about) is a parameter returning its success flag, the updated transaction
state and the queue actions it performed; the remaining control flow follows
the source: connect, pop, validate table, BEGIN when `flush_lines_queued == 0`,
run the INSERT, on success bump `flush_lines_queued` and possibly COMMIT
(returning FALSE immediately after a failed COMMIT and its ROLLBACK), then the
common finishing tail. -/
def afsql_dd_insert_db
    (validate_table : DriverState → Bool × DriverState × List QueueAction)
    (env : InsertEnv) (s : DriverState) :
    Bool × DriverState × List QueueAction :=
  if !env.connect_ok then (false, s, [])
  else if !env.queue_has_msg then (true, s, [])
  else
    let v := validate_table s
    if !v.1 then
      let f := insertDbFinish env.ping_alive false v.2.1
      (f.1, f.2.1, v.2.2 ++ f.2.2)
    else
      let sv := v.2.1
      let b :=
        if afsql_dd_should_begin_new_transaction sv then
          afsql_dd_begin_transaction env.begin_query_ok sv
        else (true, sv, [])
      if !b.1 then
        let f := insertDbFinish env.ping_alive false b.2.1
        (f.1, f.2.1, v.2.2 ++ b.2.2 ++ f.2.2)
      else
        let s2 := b.2.1
        let success := env.insert_query_ok
        if success && s2.flush_lines_queued != -1 then
          let s3 := {s2 with flush_lines_queued := s2.flush_lines_queued + 1}
          if afsql_dd_should_commit_transaction s3 then
            let c := afsql_dd_commit_transaction env.commit_query_ok s3
            if !c.1 then
              let rb := afsql_dd_rollback_transaction env.rollback_query_ok c.2.1
              (false, rb.2.1, v.2.2 ++ b.2.2 ++ c.2.2 ++ rb.2.2)
            else
              let f := insertDbFinish env.ping_alive true c.2.1
              (f.1, f.2.1, v.2.2 ++ b.2.2 ++ c.2.2 ++ f.2.2)
          else
            let f := insertDbFinish env.ping_alive true s3
            (f.1, f.2.1, v.2.2 ++ b.2.2 ++ f.2.2)
        else
          let f := insertDbFinish env.ping_alive success s2
          (f.1, f.2.1, v.2.2 ++ b.2.2 ++ f.2.2)

/-- The table-validation outcome when the table is already cached in
`validated_tables` (afsql.c:563-564): success, no state change, no queue
operation. -/
def validateCached (s : DriverState) : Bool × DriverState × List QueueAction :=
  (true, s, [])

/-- One entry of the driver's `fields` array (`AFSqlField`, afsql.c:54-60):
the `AFSQL_FF_DEFAULT` flag, the column name, and the value template.  For a
fixed message a present template renders to one string, so the template is
modelled by its rendered value (template evaluation is an external collaborator
of the module). -/
structure AFSqlField where
  default_flag : Bool
  name : List Char
  value : Option (List Char)
deriving Repr, DecidableEq

/-- ", " — the separator placed between emitted entries. -/
def commaSep : List Char := [',', ' ']

/-- "NULL" — the literal emitted for a value equal to the null sentinel. -/
def nullLiteral : List Char := ['N', 'U', 'L', 'L']

/-- "''" — the literal emitted when the driver's quoting primitive fails. -/
def emptyQuotes : List Char := [Char.ofNat 39, Char.ofNat 39]

/-- The comma lookahead of `afsql_dd_build_insert_command` (afsql.c:806-811,
842-846): starting after the current field, skip fields carrying
`AFSQL_FF_DEFAULT`; a separator is emitted iff a field without the flag
remains. -/
def anyLaterNonDefault (rest : List AFSqlField) : Bool :=
  rest.any fun f => !f.default_flag

/-- The value rendering of `afsql_dd_build_insert_command` (afsql.c:824-840):
a rendered value string-equal to the configured `null_value` is emitted as the
literal `NULL`; otherwise the driver's `quote_string` primitive (the `quote`
parameter) is applied, and if it yields no string the literal `''` is emitted
instead. -/
def renderInsertValue (quote : List Char → Option (List Char))
    (null_value : Option (List Char)) (v : List Char) : List Char :=
  match null_value with
  | some nv =>
    if nv = v then nullLiteral
    else
      match quote v with
      | some q => q
      | none => emptyQuotes
  | none =>
    match quote v with
    | some q => q
    | none => emptyQuotes

/-- The column-list loop of `afsql_dd_build_insert_command` (afsql.c:800-813):
a field is emitted when its `AFSQL_FF_DEFAULT` flag is unset and its value
template is present; the separator follows per `anyLaterNonDefault`. -/
def buildColumns : List AFSqlField → List Char
  | [] => []
  | f :: rest =>
    if !f.default_flag && f.value.isSome then
      f.name ++ (if anyLaterNonDefault rest then commaSep else []) ++
        buildColumns rest
    else
      buildColumns rest

/-- The values-list loop of `afsql_dd_build_insert_command` (afsql.c:817-848):
same emission condition and separator placement as the column list, emitting
the rendered, quoted value. -/
def buildValues (quote : List Char → Option (List Char))
    (null_value : Option (List Char)) : List AFSqlField → List Char
  | [] => []
  | f :: rest =>
    if !f.default_flag && f.value.isSome then
      renderInsertValue quote null_value (f.value.getD []) ++
        (if anyLaterNonDefault rest then commaSep else []) ++
        buildValues quote null_value rest
    else
      buildValues quote null_value rest

/-- `afsql_dd_build_insert_command` (afsql.c:791-855): assembles
`INSERT INTO {table} ({columns}) VALUES ({values})`. -/
def afsql_dd_build_insert_command (quote : List Char → Option (List Char))
    (null_value : Option (List Char)) (fields : List AFSqlField)
    (table : List Char) : List Char :=
  ("INSERT INTO ".toList) ++ table ++ (" (".toList) ++
    buildColumns fields ++ (") VALUES (".toList) ++
    buildValues quote null_value fields ++ (")".toList)

/-- The fields that are not marked `AFSQL_FF_DEFAULT` — per the spec, exactly
the fields contributing to the column and values lists. -/
def nonDefaultFields (fields : List AFSqlField) : List AFSqlField :=
  fields.filter fun f => !f.default_flag

/-- Joining per the spec's words: commas placed only between entries, no
trailing comma. -/
def joinComma : List (List Char) → List Char
  | [] => []
  | [x] => x
  | x :: y :: rest => x ++ commaSep ++ joinComma (y :: rest)

/- ---------------------------------------------------------------- theorems -/

/-- C10: `afsql_dd_check_port(port)` returns TRUE iff every byte of the string
is an ASCII digit '0'..'9' (48..57); in particular it returns TRUE for the
empty string. -/
theorem afsql_check_port_iff_all_digits (p : List Nat) :
    (afsql_dd_check_port p = true ↔ ∀ c ∈ p, 48 ≤ c ∧ c ≤ 57) ∧
    afsql_dd_check_port [] = true := by
  constructor
  · rw [afsql_dd_check_port, List.all_eq_true]
    constructor
    · intro h c hc
      have := h c hc
      simp only [Bool.not_eq_true', Bool.or_eq_false_iff, decide_eq_false_iff_not] at this
      omega
    · intro h c hc
      have := h c hc
      simp only [Bool.not_eq_true', Bool.or_eq_false_iff, decide_eq_false_iff_not]
      omega
  · rfl

/-- C1, as stated, is false: a configuration with the `explicit-commits` flag
unset and `flush_lines = 10` initialises to `flush_lines = 10` (≠ -1) while the
runtime counter `flush_lines_queued` is -1, so
`flush_lines == -1 ⇔ flush_counter == -1` fails right after initialization. -/
theorem afsql_flush_sentinel_iff_false :
    (afsql_dd_init_flush 100 ⟨false, 10⟩).1 = 10 ∧
    (afsql_dd_init_flush 100 ⟨false, 10⟩).2 = -1 ∧
    ¬(((afsql_dd_init_flush 100 ⟨false, 10⟩).1 = -1) ↔
      ((afsql_dd_init_flush 100 ⟨false, 10⟩).2 = -1)) := by
  refine ⟨rfl, rfl, ?_⟩
  intro h
  have h10 : (afsql_dd_init_flush 100 ⟨false, 10⟩).1 = 10 := rfl
  have hm1 : (afsql_dd_init_flush 100 ⟨false, 10⟩).2 = -1 := rfl
  have := h.mpr hm1
  rw [h10] at this
  exact absurd this (by decide)

/-- Helper: the source's per-character test agrees with the specification's
grammar at every index and byte. -/
theorem identCharOk_eq_grammarOkAt (i c : Nat) :
    identCharOk i c = grammarOkAt i c := by
  rw [Bool.eq_iff_iff]
  by_cases h : 65 ≤ c ∧ c ≤ 90
  · simp only [identCharOk, grammarOkAt, g_ascii_tolower, if_pos h, Bool.or_eq_true,
      Bool.and_eq_true, beq_iff_eq, decide_eq_true_eq]
    omega
  · simp only [identCharOk, grammarOkAt, g_ascii_tolower, if_neg h, Bool.or_eq_true,
      Bool.and_eq_true, beq_iff_eq, decide_eq_true_eq]
    omega

/-- Helper: with `sanitize = false` the checker accepts iff every byte is in
the grammar at its position. -/
theorem checkIdentGo_false_fst (l : List Nat) : ∀ i : Nat,
    ((checkIdentGo false i l).1 = true ↔
      ∀ p ∈ List.enumFrom i l, grammarOkAt p.1 p.2 = true) := by
  induction l with
  | nil => intro i; simp [checkIdentGo, List.enumFrom]
  | cons c r ih =>
    intro i
    by_cases hc : identCharOk i c = true
    · have hg : grammarOkAt i c = true := identCharOk_eq_grammarOkAt i c ▸ hc
      simp only [checkIdentGo, if_pos hc, List.enumFrom, List.mem_cons]
      rw [ih (i + 1)]
      constructor
      · intro h p hp
        rcases hp with hp | hp
        · rw [hp]; exact hg
        · exact h p hp
      · intro h p hp; exact h p (Or.inr hp)
    · have hg : ¬ grammarOkAt i c = true := by
        rw [← identCharOk_eq_grammarOkAt]; exact hc
      simp only [checkIdentGo, if_neg hc, if_neg (by simp : ¬ (false = true))]
      constructor
      · intro h; exact absurd h (by simp)
      · intro h
        exact absurd (h (i, c) (by simp [List.enumFrom])) hg

/-- Helper: with `sanitize = false` the token is never modified. -/
theorem checkIdentGo_false_snd (l : List Nat) : ∀ i : Nat,
    (checkIdentGo false i l).2 = l := by
  induction l with
  | nil => intro i; rfl
  | cons c r ih =>
    intro i
    by_cases hc : identCharOk i c = true
    · simp only [checkIdentGo, if_pos hc]
      rw [ih (i + 1)]
    · simp only [checkIdentGo, if_neg hc, if_neg (by simp : ¬ (false = true))]

/-- Helper: with `sanitize = true` the checker always returns TRUE. -/
theorem checkIdentGo_true_fst (l : List Nat) : ∀ i : Nat,
    (checkIdentGo true i l).1 = true := by
  induction l with
  | nil => intro i; rfl
  | cons c r ih =>
    intro i
    by_cases hc : identCharOk i c = true
    · simp only [checkIdentGo, if_pos hc]; exact ih (i + 1)
    · simp only [checkIdentGo, if_neg hc, if_pos rfl]; exact ih (i + 1)

/-- Helper: with `sanitize = true` the returned token replaces exactly the
out-of-grammar bytes by '_' (95), position by position. -/
theorem checkIdentGo_true_snd (l : List Nat) : ∀ i : Nat,
    (checkIdentGo true i l).2 = sanitizeSpec i l := by
  induction l with
  | nil => intro i; rfl
  | cons c r ih =>
    intro i
    by_cases hc : identCharOk i c = true
    · simp only [checkIdentGo, if_pos hc, sanitizeSpec,
        if_pos (identCharOk_eq_grammarOkAt i c ▸ hc)]
      rw [ih (i + 1)]
    · have hg : ¬ grammarOkAt i c = true := by
        rw [← identCharOk_eq_grammarOkAt]; exact hc
      simp only [checkIdentGo, if_neg hc, sanitizeSpec, if_neg hg]
      simp [ih (i + 1)]

/-- C7: `afsql_dd_check_sql_identifier` accepts (with `sanitize=false`) exactly
the strings whose bytes are in `[A-Za-z_.]` at every position with `[0-9]`
additionally allowed from position 1 onward, leaving the token unchanged;
with `sanitize=true` it returns ok on every input and replaces exactly the
out-of-grammar bytes in place by '_'. -/
theorem afsql_check_identifier_spec (s : List Nat) :
    ((afsql_dd_check_sql_identifier s false).1 = true ↔
      ∀ p ∈ s.enum, grammarOkAt p.1 p.2 = true) ∧
    (afsql_dd_check_sql_identifier s false).2 = s ∧
    (afsql_dd_check_sql_identifier s true).1 = true ∧
    (afsql_dd_check_sql_identifier s true).2 = sanitizeSpec 0 s := by
  refine ⟨?_, checkIdentGo_false_snd s 0, checkIdentGo_true_fst s 0,
    checkIdentGo_true_snd s 0⟩
  have h := checkIdentGo_false_fst s 0
  exact h

/-- Helper: '_' (95) is in the grammar at every position, so a sanitised byte
passes the per-character test. -/
theorem identCharOk_underscore (i : Nat) : identCharOk i 95 = true := by
  simp [identCharOk]

/-- Helper: re-sanitising a sanitised suffix changes nothing, at any index. -/
theorem checkIdentGo_true_idem (l : List Nat) : ∀ i : Nat,
    (checkIdentGo true i (checkIdentGo true i l).2).2 =
      (checkIdentGo true i l).2 := by
  induction l with
  | nil => intro i; rfl
  | cons c r ih =>
    intro i
    by_cases hc : identCharOk i c = true
    · simp only [checkIdentGo, if_pos hc]
      rw [ih (i + 1)]
    · simp only [checkIdentGo, if_neg hc, if_pos (identCharOk_underscore i)]
      simp [ih (i + 1)]

/-- C9: the identifier sanitizer is idempotent: running
`afsql_dd_check_sql_identifier` with `sanitize=true` on the output of a first
such run changes no byte. -/
theorem afsql_sanitize_idempotent (s : List Nat) :
    (afsql_dd_check_sql_identifier
        (afsql_dd_check_sql_identifier s true).2 true).2 =
      (afsql_dd_check_sql_identifier s true).2 :=
  checkIdentGo_true_idem s 0

/-- Helper: the ASCII-hex rendering of a byte list has twice its length. -/
theorem hexFlatten_length (l : List Nat) :
    ((l.map byteToHex).flatten).length = 2 * l.length := by
  induction l with
  | nil => rfl
  | cons b r ih =>
    simp only [List.map_cons, List.flatten_cons, List.length_append, ih,
      byteToHex, List.length_cons, List.length_nil]
    omega

/-- Helper: every byte of the ASCII-hex rendering of a list of bytes < 256 is
a lowercase hex digit ('0'..'9' or 'a'..'f'). -/
theorem hexFlatten_mem (l : List Nat) (hb : ∀ b ∈ l, b < 256) :
    ∀ c ∈ (l.map byteToHex).flatten,
      (48 ≤ c ∧ c ≤ 57) ∨ (97 ≤ c ∧ c ≤ 102) := by
  intro c hc
  rcases List.mem_flatten.mp hc with ⟨x, hx, hcx⟩
  rcases List.mem_map.mp hx with ⟨b, hbl, hbx⟩
  have hb256 : b < 256 := hb b hbl
  subst hbx
  have hdigit : ∀ m : Nat, m < 16 →
      (48 ≤ hexDigitByte m ∧ hexDigitByte m ≤ 57) ∨
      (97 ≤ hexDigitByte m ∧ hexDigitByte m ≤ 102) := by
    intro m hm
    unfold hexDigitByte
    split <;> omega
  have hor : c = hexDigitByte (b / 16) ∨ c = hexDigitByte (b % 16) := by
    simpa [byteToHex] using hcx
  rcases hor with h | h
  · rw [h]; exact hdigit (b / 16) (by omega)
  · rw [h]; exact hdigit (b % 16) (by omega)

/-- C8: for dialect oracle with `len(table) + len(column) > 25`, the derived
index name is the ASCII-hex of the 16-byte MD5 digest of `"{table}_{column}"`
truncated to 30 characters with the first character overwritten to 'i' (105):
it has length 30, starts with 'i' and continues with 29 lowercase hex digits
(`^i[0-9a-f]{29}$`); otherwise, and for every non-oracle dialect, the index
name is `{table}_{column}_idx`. -/
theorem afsql_oracle_index_name (table column digest : List Nat)
    (hlen : digest.length = 16) (hbytes : ∀ b ∈ digest, b < 256)
    (hlong : table.length + column.length > 25) :
    (afsql_dd_index_name (fun _ => digest) oracleType table column).length
        = 30 ∧
    (afsql_dd_index_name (fun _ => digest) oracleType table column).head?
        = some 105 ∧
    (∀ c ∈ (afsql_dd_index_name (fun _ => digest) oracleType table column).tail,
      (48 ≤ c ∧ c ≤ 57) ∨ (97 ≤ c ∧ c ≤ 102)) ∧
    (∀ (typ t2 c2 : List Nat) (md5 : List Nat → List Nat),
      typ ≠ oracleType ∨ t2.length + c2.length ≤ 25 →
      afsql_dd_index_name md5 typ t2 c2 = t2 ++ [95] ++ c2 ++ idxSuffix) := by
  have hfull : ((digest.map byteToHex).flatten).length = 32 := by
    rw [hexFlatten_length, hlen]
  have hhex : format_hex_string digest 31 =
      ((digest.map byteToHex).flatten).take 30 := rfl
  have hhexlen : (format_hex_string digest 31).length = 30 := by
    rw [hhex, List.length_take, hfull]
    omega
  obtain ⟨a, t, hat⟩ : ∃ a t, format_hex_string digest 31 = a :: t := by
    cases h : format_hex_string digest 31 with
    | nil => rw [h] at hhexlen; exact absurd hhexlen (by decide)
    | cons a t => exact ⟨a, t, rfl⟩
  have hname : afsql_dd_index_name (fun _ => digest) oracleType table column
      = 105 :: t := by
    rw [afsql_dd_index_name, if_pos ⟨rfl, hlong⟩]
    rw [hat]
  have htlen : t.length = 29 := by
    rw [hat] at hhexlen
    simpa using hhexlen
  refine ⟨?_, ?_, ?_, ?_⟩
  · rw [hname, List.length_cons, htlen]
  · rw [hname]; rfl
  · intro c hc
    rw [hname] at hc
    have hct : c ∈ t := by simpa using hc
    have hcf : c ∈ format_hex_string digest 31 := by
      rw [hat]; exact List.mem_cons_of_mem a hct
    have hcfull : c ∈ (digest.map byteToHex).flatten := by
      rw [hhex] at hcf
      exact List.take_subset 30 _ hcf
    exact hexFlatten_mem digest hbytes c hcfull
  · intro typ t2 c2 md5 h
    rw [afsql_dd_index_name, if_neg]
    rintro ⟨h1, h2⟩
    rcases h with h | h
    · exact h h1
    · omega

/-- Witness for C8: a 16+10-character oracle table/column pair with a concrete
16-byte digest yields a 30-character index name. -/
theorem afsql_oracle_index_name_witness :
    (afsql_dd_index_name (fun _ => List.replicate 16 171) oracleType
        (List.replicate 16 97) (List.replicate 10 98)).length = 30 :=
  (afsql_oracle_index_name (List.replicate 16 97) (List.replicate 10 98)
    (List.replicate 16 171) (by decide) (by decide) (by decide)).1

/-- C3: `afsql_dd_commit_transaction` returns ok with no state change and no
queue operation when no transaction is active; with an active transaction and
a successful COMMIT it acknowledges exactly `flush_lines_queued` backlog
entries, zeroes the counter and clears `transaction_active`; with a failed
COMMIT it rewinds the entire backlog, zeroes the counter, leaves
`transaction_active` unchanged and returns fail. -/
theorem afsql_commit_transaction_spec (ok : Bool) (s : DriverState) :
    (s.transaction_active = false →
      afsql_dd_commit_transaction ok s = (true, s, [])) ∧
    (s.transaction_active = true → ok = true →
      afsql_dd_commit_transaction ok s =
        (true, {s with flush_lines_queued := 0, transaction_active := false},
          [QueueAction.ackBacklog s.flush_lines_queued])) ∧
    (s.transaction_active = true → ok = false →
      afsql_dd_commit_transaction ok s =
        (false, {s with flush_lines_queued := 0},
          [QueueAction.rewindBacklogAll])) := by
  refine ⟨?_, ?_, ?_⟩
  · intro h
    simp [afsql_dd_commit_transaction, h]
  · intro h hok
    simp [afsql_dd_commit_transaction, h, hok]
  · intro h hok
    simp [afsql_dd_commit_transaction, afsql_dd_handle_transaction_error, h, hok]

/-- Witness for C3: a concrete active transaction with two queued lines whose
COMMIT succeeds acknowledges exactly two backlog entries and clears the
transaction state. -/
theorem afsql_commit_transaction_spec_witness :
    afsql_dd_commit_transaction true
        ⟨[], 5, 2, true, 0, 3, true⟩ =
      (true, ⟨[], 5, 0, false, 0, 3, true⟩, [QueueAction.ackBacklog 2]) :=
  (afsql_commit_transaction_spec true ⟨[], 5, 2, true, 0, 3, true⟩).2.1 rfl rfl

/-- C4: after any failing `afsql_dd_commit_transaction` call followed by the
caller's `afsql_dd_rollback_transaction` attempt, the state has
`flush_lines_queued = 0` and `transaction_active = false`, whether or not the
ROLLBACK query itself succeeds. -/
theorem afsql_commit_failure_post_rollback (ok rb : Bool) (s : DriverState)
    (hfail : (afsql_dd_commit_transaction ok s).1 = false) :
    ((afsql_dd_rollback_transaction rb
        (afsql_dd_commit_transaction ok s).2.1).2.1).flush_lines_queued = 0 ∧
    ((afsql_dd_rollback_transaction rb
        (afsql_dd_commit_transaction ok s).2.1).2.1).transaction_active
      = false := by
  rcases hta : s.transaction_active with _ | _
  · rw [afsql_dd_commit_transaction] at hfail
    simp [hta] at hfail
  · rcases ok with _ | _
    · simp [afsql_dd_commit_transaction, afsql_dd_handle_transaction_error,
        afsql_dd_rollback_transaction, hta]
    · rw [afsql_dd_commit_transaction] at hfail
      simp [hta] at hfail

/-- Witness for C4: a concrete commit failure (active transaction, COMMIT
query fails) followed by a rollback whose ROLLBACK query also fails still
leaves `flush_lines_queued = 0` and `transaction_active = false`. -/
theorem afsql_commit_failure_post_rollback_witness :
    ((afsql_dd_rollback_transaction false
        (afsql_dd_commit_transaction false
          ⟨[], 5, 2, true, 0, 3, true⟩).2.1).2.1).flush_lines_queued = 0 ∧
    ((afsql_dd_rollback_transaction false
        (afsql_dd_commit_transaction false
          ⟨[], 5, 2, true, 0, 3, true⟩).2.1).2.1).transaction_active = false :=
  afsql_commit_failure_post_rollback false false
    ⟨[], 5, 2, true, 0, 3, true⟩ (by decide)

/-- C1, amended: at the state produced by initialization, the runtime counter
`flush_lines_queued` is -1 (transaction handling disabled) if and only if it is
NOT the case that the `explicit-commits` flag is set and the effective
`flush_lines` is positive. -/
theorem afsql_flush_sentinel_iff_amended (cfg : Int) (c : SqlInitConfig) :
    (afsql_dd_init_flush cfg c).2 = -1 ↔
      ¬(c.explicit_commits = true ∧ (afsql_dd_init_flush cfg c).1 > 0) := by
  unfold afsql_dd_init_flush
  by_cases h : c.explicit_commits = true ∧
      (if c.flush_lines = -1 then cfg else c.flush_lines) > 0
  · simp only [if_pos h]
    constructor
    · intro h0; exact absurd h0 (by decide)
    · intro hn; exact absurd h hn
  · simp only [if_neg h]
    constructor
    · intro _ hc; exact h hc
    · intro _; trivial

/-- Helper: the comma lookahead finds a later field iff the non-default
filtering of the remaining fields is non-empty. -/
theorem anyLaterNonDefault_iff (rest : List AFSqlField) :
    anyLaterNonDefault rest = true ↔ nonDefaultFields rest ≠ [] := by
  constructor
  · intro h hnil
    rcases List.any_eq_true.mp h with ⟨f, hf, hp⟩
    exact absurd hp (List.filter_eq_nil_iff.mp hnil f hf)
  · intro h
    cases hq : nonDefaultFields rest with
    | nil => exact absurd hq h
    | cons y ys =>
      have hy : y ∈ nonDefaultFields rest := by
        rw [hq]; exact List.mem_cons_self y ys
      have hy' := List.mem_filter.mp hy
      exact List.any_eq_true.mpr ⟨y, hy'.1, hy'.2⟩

/-- Helper: unfolding `joinComma` one entry at a time. -/
theorem joinComma_cons (x : List Char) (l : List (List Char)) :
    joinComma (x :: l) =
      x ++ (if l = [] then [] else commaSep ++ joinComma l) := by
  cases l with
  | nil => simp [joinComma]
  | cons y r => simp [joinComma]

/-- Helper: the column-list loop produces exactly the comma-joined names of
the non-default fields, for well-formed field arrays (the flag is set iff the
template is absent, as `afsql_dd_init` establishes). -/
theorem buildColumns_eq (fields : List AFSqlField)
    (hwf : ∀ f ∈ fields, (f.default_flag = true ↔ f.value = none)) :
    buildColumns fields =
      joinComma ((nonDefaultFields fields).map AFSqlField.name) := by
  induction fields with
  | nil => rfl
  | cons f rest ih =>
    have hwfr : ∀ g ∈ rest, (g.default_flag = true ↔ g.value = none) :=
      fun g hg => hwf g (List.mem_cons_of_mem f hg)
    have hwff := hwf f (List.mem_cons_self f rest)
    have ih' := fun h => ih h
    by_cases hd : f.default_flag = true
    · have hv : f.value = none := hwff.mp hd
      simp only [buildColumns, hd, hv, Bool.not_true, Bool.false_and,
        Option.isSome_none, Bool.and_false, if_neg (by simp : ¬ (false = true)),
        nonDefaultFields, List.filter_cons, Bool.not_eq_true']
      exact ih hwfr
    · have hd' : f.default_flag = false := by
        rwa [Bool.not_eq_true] at hd
      have hv : f.value ≠ none := fun h => hd (hwff.mpr h)
      have hvs : f.value.isSome = true := Option.isSome_iff_ne_none.mpr hv
      have hfc : nonDefaultFields (f :: rest) = f :: nonDefaultFields rest := by
        simp [nonDefaultFields, List.filter_cons, hd']
      simp only [buildColumns, hd', hvs, Bool.not_false, Bool.true_and,
        if_pos rfl]
      rw [hfc, List.map_cons, joinComma_cons, ih hwfr]
      by_cases he : nonDefaultFields rest = []
      · have hany : anyLaterNonDefault rest = false := by
          cases hab : anyLaterNonDefault rest with
          | false => rfl
          | true => exact absurd he ((anyLaterNonDefault_iff rest).mp hab)
        simp [hany, he, joinComma]
      · have hany : anyLaterNonDefault rest = true :=
          (anyLaterNonDefault_iff rest).mpr he
        have hmap : (nonDefaultFields rest).map AFSqlField.name ≠ [] := by
          simpa using he
        simp [hany, hmap]

/-- Helper: the values-list loop produces exactly the comma-joined rendered
values of the non-default fields, for well-formed field arrays. -/
theorem buildValues_eq (quote : List Char → Option (List Char))
    (null_value : Option (List Char)) (fields : List AFSqlField)
    (hwf : ∀ f ∈ fields, (f.default_flag = true ↔ f.value = none)) :
    buildValues quote null_value fields =
      joinComma ((nonDefaultFields fields).map fun f =>
        renderInsertValue quote null_value (f.value.getD [])) := by
  induction fields with
  | nil => rfl
  | cons f rest ih =>
    have hwfr : ∀ g ∈ rest, (g.default_flag = true ↔ g.value = none) :=
      fun g hg => hwf g (List.mem_cons_of_mem f hg)
    have hwff := hwf f (List.mem_cons_self f rest)
    by_cases hd : f.default_flag = true
    · have hv : f.value = none := hwff.mp hd
      simp only [buildValues, hd, hv, Bool.not_true, Bool.false_and,
        Option.isSome_none, Bool.and_false, if_neg (by simp : ¬ (false = true)),
        nonDefaultFields, List.filter_cons, Bool.not_eq_true']
      exact ih hwfr
    · have hd' : f.default_flag = false := by
        rwa [Bool.not_eq_true] at hd
      have hv : f.value ≠ none := fun h => hd (hwff.mpr h)
      have hvs : f.value.isSome = true := Option.isSome_iff_ne_none.mpr hv
      have hfc : nonDefaultFields (f :: rest) = f :: nonDefaultFields rest := by
        simp [nonDefaultFields, List.filter_cons, hd']
      simp only [buildValues, hd', hvs, Bool.not_false, Bool.true_and,
        if_pos rfl]
      rw [hfc, List.map_cons, joinComma_cons, ih hwfr]
      by_cases he : nonDefaultFields rest = []
      · have hany : anyLaterNonDefault rest = false := by
          cases hab : anyLaterNonDefault rest with
          | false => rfl
          | true => exact absurd he ((anyLaterNonDefault_iff rest).mp hab)
        simp [hany, he, joinComma]
      · have hany : anyLaterNonDefault rest = true :=
          (anyLaterNonDefault_iff rest).mpr he
        have hmap : ((nonDefaultFields rest).map fun f =>
            renderInsertValue quote null_value (f.value.getD [])) ≠ [] := by
          simpa using he
        simp [hany, hmap]

/-- C5: for every well-formed field array (the `AFSQL_FF_DEFAULT` flag is set
iff the value template is absent, as established at init) and every message,
the INSERT statement built by `afsql_dd_build_insert_command` has a column
list and a values list of equal cardinality, skipping exactly the fields
marked `AFSQL_FF_DEFAULT`, with commas only between non-skipped pairs and no
trailing comma in either list. -/
theorem afsql_insert_command_shape (quote : List Char → Option (List Char))
    (null_value : Option (List Char)) (fields : List AFSqlField)
    (table : List Char)
    (hwf : ∀ f ∈ fields, (f.default_flag = true ↔ f.value = none)) :
    buildColumns fields =
      joinComma ((nonDefaultFields fields).map AFSqlField.name) ∧
    buildValues quote null_value fields =
      joinComma ((nonDefaultFields fields).map fun f =>
        renderInsertValue quote null_value (f.value.getD [])) ∧
    ((nonDefaultFields fields).map AFSqlField.name).length =
      ((nonDefaultFields fields).map fun f =>
        renderInsertValue quote null_value (f.value.getD [])).length ∧
    afsql_dd_build_insert_command quote null_value fields table =
      ("INSERT INTO ".toList) ++ table ++ (" (".toList) ++
        joinComma ((nonDefaultFields fields).map AFSqlField.name) ++
        (") VALUES (".toList) ++
        joinComma ((nonDefaultFields fields).map fun f =>
          renderInsertValue quote null_value (f.value.getD [])) ++
        (")".toList) := by
  refine ⟨buildColumns_eq fields hwf, buildValues_eq quote null_value fields hwf,
    ?_, ?_⟩
  · simp
  · rw [afsql_dd_build_insert_command, buildColumns_eq fields hwf,
      buildValues_eq quote null_value fields hwf]

/-- Witness for C5: a concrete three-field array (middle field marked DEFAULT)
yields the two-entry comma-joined column list. -/
theorem afsql_insert_command_shape_witness :
    buildColumns
        [⟨false, ['a'], some ['1']⟩, ⟨true, ['b'], none⟩,
          ⟨false, ['c'], some ['2']⟩] =
      joinComma ((nonDefaultFields
        [⟨false, ['a'], some ['1']⟩, ⟨true, ['b'], none⟩,
          ⟨false, ['c'], some ['2']⟩]).map AFSqlField.name) :=
  (afsql_insert_command_shape (fun v => some v) none
    [⟨false, ['a'], some ['1']⟩, ⟨true, ['b'], none⟩,
      ⟨false, ['c'], some ['2']⟩] ['t'] (by decide)).1

/-- C6: a rendered field value string-equal to the configured null sentinel is
emitted as the unquoted literal `NULL`; any other value is passed through the
driver's `quote_string` primitive; and if quoting yields no string the literal
`''` is emitted in its place. -/
theorem afsql_null_sentinel_rendering (quote : List Char → Option (List Char))
    (null_value : Option (List Char)) (v : List Char) :
    (∀ nv : List Char, null_value = some nv → nv = v →
      renderInsertValue quote null_value v = nullLiteral) ∧
    (null_value ≠ some v → ∀ q : List Char, quote v = some q →
      renderInsertValue quote null_value v = q) ∧
    (null_value ≠ some v → quote v = none →
      renderInsertValue quote null_value v = emptyQuotes) := by
  refine ⟨?_, ?_, ?_⟩
  · rintro nv rfl rfl
    simp [renderInsertValue]
  · intro hne q hq
    cases null_value with
    | none => simp [renderInsertValue, hq]
    | some nv =>
      have hnv : ¬ nv = v := fun h => hne (by rw [h])
      simp [renderInsertValue, hnv, hq]
  · intro hne hq
    cases null_value with
    | none => simp [renderInsertValue, hq]
    | some nv =>
      have hnv : ¬ nv = v := fun h => hne (by rw [h])
      simp [renderInsertValue, hnv, hq]

/-- Witness for C6: with null sentinel "-", the rendered value "-" becomes the
literal NULL. -/
theorem afsql_null_sentinel_rendering_witness :
    renderInsertValue (fun v => some v) (some ['-']) ['-'] = nullLiteral :=
  (afsql_null_sentinel_rendering (fun v => some v) (some ['-']) ['-']).1
    ['-'] rfl rfl

/-- Helper: one `afsql_dd_insert_db` call whose INSERT fails with the
connection alive, while the failure counter is still below
`num_retries - 1`: the call returns FALSE, rewinds the single message (one
backlog entry under explicit-commits, else a push back to the queue head) and
increments `failed_message_counter`. -/
theorem insert_db_fail_retry
    (env : InsertEnv)
    (hconn : env.connect_ok = true) (hmsg : env.queue_has_msg = true)
    (hins : env.insert_query_ok = false) (hping : env.ping_alive = true)
    (hbegin : env.begin_query_ok = true)
    (validate_table : DriverState → Bool × DriverState × List QueueAction)
    (s s1 : DriverState) (a1 : List QueueAction)
    (hv : validate_table s = (true, s1, a1))
    (hlt : s1.failed_message_counter < s1.num_retries - 1) :
    afsql_dd_insert_db validate_table env s =
      (false,
        {s1 with
          transaction_active :=
            (if afsql_dd_should_begin_new_transaction s1 then true
             else s1.transaction_active),
          failed_message_counter := s1.failed_message_counter + 1},
        a1 ++ (if s1.explicit_commits then [QueueAction.rewindBacklog 1]
               else [QueueAction.pushHead])) := by
  by_cases hsb : afsql_dd_should_begin_new_transaction s1 = true
  · simp [afsql_dd_insert_db, afsql_dd_begin_transaction, insertDbFinish,
      afsql_dd_handle_insert_row_error, afsql_dd_rollback_msg,
      hconn, hmsg, hins, hbegin, hping, hv, hsb, hlt]
  · simp [afsql_dd_insert_db, afsql_dd_begin_transaction, insertDbFinish,
      afsql_dd_handle_insert_row_error, afsql_dd_rollback_msg,
      hconn, hmsg, hins, hbegin, hping, hv, hsb, hlt]

/-- Helper: one `afsql_dd_insert_db` call whose INSERT fails once the failure
counter has reached `num_retries - 1`: the message is dropped
(`dropped_messages` incremented, the message marked dropped), the counter is
reset to 0 and the call reports success. -/
theorem insert_db_fail_drop
    (env : InsertEnv)
    (hconn : env.connect_ok = true) (hmsg : env.queue_has_msg = true)
    (hins : env.insert_query_ok = false) (hbegin : env.begin_query_ok = true)
    (validate_table : DriverState → Bool × DriverState × List QueueAction)
    (s s1 : DriverState) (a1 : List QueueAction)
    (hv : validate_table s = (true, s1, a1))
    (hge : s1.num_retries - 1 ≤ s1.failed_message_counter) :
    afsql_dd_insert_db validate_table env s =
      (true,
        {s1 with
          transaction_active :=
            (if afsql_dd_should_begin_new_transaction s1 then true
             else s1.transaction_active),
          failed_message_counter := 0},
        a1 ++ [QueueAction.incDropped, QueueAction.dropMsg]) := by
  have hnlt : ¬ s1.failed_message_counter < s1.num_retries - 1 := by omega
  by_cases hsb : afsql_dd_should_begin_new_transaction s1 = true
  · simp [afsql_dd_insert_db, afsql_dd_begin_transaction, insertDbFinish,
      hconn, hmsg, hins, hbegin, hv, hsb, hnlt]
  · simp [afsql_dd_insert_db, afsql_dd_begin_transaction, insertDbFinish,
      hconn, hmsg, hins, hbegin, hv, hsb, hnlt]

/-- Helper: iterating failing attempts (cached table, INSERT failing,
connection alive) from a fresh message: after k attempts (k within the retry
budget) the failure counter is exactly k and the configuration fields are
untouched. -/
theorem insert_db_fail_iter
    (env : InsertEnv)
    (hconn : env.connect_ok = true) (hmsg : env.queue_has_msg = true)
    (hins : env.insert_query_ok = false) (hping : env.ping_alive = true)
    (hbegin : env.begin_query_ok = true)
    (st : DriverState) :
    ∀ k : Nat, k ≤ st.num_retries - 1 →
      (((fun t => (afsql_dd_insert_db validateCached env t).2.1)^[k]
          {st with failed_message_counter := 0}).failed_message_counter = k) ∧
      (((fun t => (afsql_dd_insert_db validateCached env t).2.1)^[k]
          {st with failed_message_counter := 0}).num_retries = st.num_retries) := by
  intro k
  induction k with
  | zero => intro _; simp
  | succ k ih =>
    intro hk1
    have hk : k ≤ st.num_retries - 1 := by omega
    obtain ⟨hc, hn⟩ := ih hk
    rw [Function.iterate_succ_apply']
    have hlt : ((fun t => (afsql_dd_insert_db validateCached env t).2.1)^[k]
        {st with failed_message_counter := 0}).failed_message_counter <
        ((fun t => (afsql_dd_insert_db validateCached env t).2.1)^[k]
        {st with failed_message_counter := 0}).num_retries - 1 := by
      rw [hc, hn]; omega
    rw [insert_db_fail_retry env hconn hmsg hins hping hbegin validateCached
      _ _ [] rfl hlt]
    exact ⟨by simp [hc], by simp [hn]⟩

/-- C2: in `afsql_dd_insert_db`, when the INSERT fails and ping reports the
connection alive (after a successful table validation and, when one is due, a
successful BEGIN): while `failed_message_counter` has not reached
`num_retries - 1` the single message is rewound (one backlog entry under
explicit-commits, otherwise a push back to the queue head) and the counter is
incremented; once it has reached `num_retries - 1` the message is instead
dropped — `dropped_messages` incremented, the message marked dropped, the
counter reset to 0, the call treated as success — so starting from a fresh
message the counter reaches exactly `num_retries - 1` after `num_retries - 1`
rewound attempts and the next (`num_retries`-th) attempt drops. -/
theorem afsql_insert_retry_then_drop
    (env : InsertEnv)
    (hconn : env.connect_ok = true) (hmsg : env.queue_has_msg = true)
    (hins : env.insert_query_ok = false) (hping : env.ping_alive = true)
    (hbegin : env.begin_query_ok = true) :
    (∀ (validate_table : DriverState → Bool × DriverState × List QueueAction)
       (s s1 : DriverState) (a1 : List QueueAction),
      validate_table s = (true, s1, a1) →
      ((s1.failed_message_counter < s1.num_retries - 1 →
        (afsql_dd_insert_db validate_table env s).1 = false ∧
        (afsql_dd_insert_db validate_table env s).2.1.failed_message_counter =
          s1.failed_message_counter + 1 ∧
        (afsql_dd_insert_db validate_table env s).2.2 =
          a1 ++ (if s1.explicit_commits then [QueueAction.rewindBacklog 1]
                 else [QueueAction.pushHead])) ∧
       (s1.num_retries - 1 ≤ s1.failed_message_counter →
        (afsql_dd_insert_db validate_table env s).1 = true ∧
        (afsql_dd_insert_db validate_table env s).2.1.failed_message_counter
          = 0 ∧
        (afsql_dd_insert_db validate_table env s).2.2 =
          a1 ++ [QueueAction.incDropped, QueueAction.dropMsg]))) ∧
    (∀ (st : DriverState) (k : Nat), k ≤ st.num_retries - 1 →
      ((fun t => (afsql_dd_insert_db validateCached env t).2.1)^[k]
          {st with failed_message_counter := 0}).failed_message_counter = k) := by
  constructor
  · intro validate_table s s1 a1 hv
    constructor
    · intro hlt
      rw [insert_db_fail_retry env hconn hmsg hins hping hbegin
        validate_table s s1 a1 hv hlt]
      exact ⟨rfl, rfl, rfl⟩
    · intro hge
      rw [insert_db_fail_drop env hconn hmsg hins hbegin
        validate_table s s1 a1 hv hge]
      exact ⟨rfl, rfl, rfl⟩
  · intro st k hk
    exact (insert_db_fail_iter env hconn hmsg hins hping hbegin st k hk).1

/-- Witness for C2: with a failing INSERT, live connection and counter 0 out
of `num_retries = 3`, one call rewinds and leaves the counter at 1. -/
theorem afsql_insert_retry_then_drop_witness :
    (afsql_dd_insert_db validateCached
        ⟨true, true, true, false, true, true, true⟩
        ⟨[], 5, -1, false, 0, 3, false⟩).2.1.failed_message_counter = 1 :=
  (((afsql_insert_retry_then_drop ⟨true, true, true, false, true, true, true⟩
      rfl rfl rfl rfl rfl).1 validateCached
      ⟨[], 5, -1, false, 0, 3, false⟩ ⟨[], 5, -1, false, 0, 3, false⟩ []
      rfl).1 (by decide)).2.1
